import Mathlib

/-!
Verification of the rs-agents runtime core: a shallow embedding of the
MockClock wakeup registry (src/timer.rs) and of the Input / Output /
Timer / Agent poll machinery (src/lib.rs), with theorems settling the
specification claims about wakeup ordering, input draining, output
backpressure and FIFO flushing, timer coalescing and termination, error
absorption, and agent completion.

Instants and durations are modelled as natural numbers; tasks are an
abstract type parameter.  Stateful Rust methods become pure state-passing
functions returning the updated structure together with their observable
effects (fired tasks, wakeup registrations, callback results).
-/

/-! ## Clock model (src/timer.rs) -/

/-- A registered wakeup: an instant paired with the waiting task
(field names follow the Rust struct Activation). -/
structure Activation (τ : Type) where
  when : Nat
  task : τ
deriving Repr, DecidableEq

/-- The binary-search loop inside insert_activation: starting from the
bounds i0 = 0, i1 = len, it halves the interval, moving i0 up when the
probed instant is strictly smaller than the new one, and finally returns
i1 as the insertion index.  It operates on the list of instants. -/
def bsearchPos (whens : List Nat) (w : Nat) (i0 i1 : Nat) : Nat :=
  if i1 - i0 > 1 then
    let i := (i0 + i1) / 2
    if whens.getD i 0 < w then bsearchPos whens w i i1 else bsearchPos whens w i0 i
  else i1
termination_by i1 - i0
decreasing_by
  all_goals simp_wf
  all_goals omega

/-- Insertion at an index, as VecDeque::insert does (index clamped to the
end when out of range). -/
def insertAt (n : Nat) (a : α) (l : List α) : List α :=
  l.take n ++ a :: l.drop n

/-- Model of insert_activation: append at the end unless the last
registered instant is strictly greater than the new one, otherwise
insert at the index computed by the binary-search loop. -/
def insert_activation (list : List (Activation τ)) (w : Nat) (task : τ) :
    List (Activation τ) :=
  let activation : Activation τ := ⟨w, task⟩
  let append_at_end : Bool :=
    match list.getLast? with
    | some a => a.when ≤ w
    | none => true
  if append_at_end then
    list ++ [activation]
  else
    insertAt (bsearchPos (list.map (·.when)) w 0 list.length) activation list

/-- State of the MockClock: the current instant and the activation
queue, front of the VecDeque at the head of the list. -/
structure MockClockState (τ : Type) where
  current : Nat
  activations : List (Activation τ)
deriving Repr, DecidableEq

/-- Model of MockClockState::add_activation. -/
def MockClockState.add_activation (st : MockClockState τ) (task : τ) (w : Nat) :
    MockClockState τ :=
  { st with activations := insert_activation st.activations w task }

/-- The loop inside MockClock::advance: pop and notify the front
activation while its instant is at most the current instant; return the
remaining queue and the notified tasks in order. -/
def fireDue (current : Nat) : List (Activation τ) → List (Activation τ) × List τ
  | [] => ([], [])
  | a :: rest =>
    if a.when ≤ current then
      let p := fireDue current rest
      (p.1, a.task :: p.2)
    else (a :: rest, [])

/-- Model of MockClock::advance: move the current instant forward, then
fire due activations from the front of the queue; returns the new state
and the tasks notified, in notification order. -/
def MockClockState.advance (st : MockClockState τ) (duration : Nat) :
    MockClockState τ × List τ :=
  let cur := st.current + duration
  let p := fireDue cur st.activations
  (⟨cur, p.1⟩, p.2)

/-- The clock of claim C1's scenario: wakeups registered at instants 3,
1, 2 in that order (tasks labelled 0, 1, 2 by registration order),
starting from an empty registry at instant 0. -/
def c1Clock : MockClockState Nat :=
  ⟨0, insert_activation
        (insert_activation
          (insert_activation ([] : List (Activation Nat)) 3 0) 1 1) 2 2⟩

/-- C1: the claimed wakeup ordering fails on the code.  Registering
wakeups at instants T+3, T+1, T+2 (T = 0; tasks 0, 1, 2 in registration
order) leaves the queue in the order [3, 1, 2], because the insertion
binary search can never produce index 0; advancing time to T+4 then
fires the tasks in queue order 0, 1, 2 (instants 3, 1, 2), not in the
claimed ascending-instant order 1, 2, 0; moreover advancing only to T+2
fires nothing at all even though the wakeups at instants 1 and 2 are
due, contradicting the claim that every due wakeup is removed and
fired. -/
theorem c1_wakeup_order_bug :
    c1Clock.activations.map (·.when) = [3, 1, 2] ∧
    (c1Clock.advance 4).2 = [0, 1, 2] ∧
    (c1Clock.advance 4).2 ≠ [1, 2, 0] ∧
    (c1Clock.advance 2).2 = [] := by
  refine ⟨?_, ?_, ?_, ?_⟩ <;>
    simp [c1Clock, insert_activation, insertAt, MockClockState.advance, fireDue, bsearchPos]

/-! ## Input model (src/lib.rs, Input and PollableInput) -/

/-- Result of polling an Input, as the Rust enum InputResult. -/
inductive InputResult
  | Ready
  | Closed
deriving Repr, DecidableEq

/-- One response of the inbound message source to a poll: an available
item, end-of-stream, nothing ready yet, or an error.  These are the
outcomes of Receiver::poll that the Rust code matches on. -/
inductive SourceResp (T : Type)
  | item (v : T)
  | eos
  | notReady
  | err
deriving Repr, DecidableEq

/-- The inbound message source, modelled as the schedule of responses it
will give to successive polls (the channel itself is an external
collaborator); an exhausted schedule answers not-ready. -/
structure Recv (T : Type) where
  resps : List (SourceResp T)
deriving Repr, DecidableEq

/-- Polling the source consumes the head of its response schedule. -/
def Recv.pollR (r : Recv T) : SourceResp T × Recv T :=
  match r.resps with
  | [] => (SourceResp.notReady, ⟨[]⟩)
  | x :: xs => (x, ⟨xs⟩)

/-- The Input adapter: an optional source handle plus the item and end
callbacks, which transform the shared state. -/
structure Input (S T : Type) where
  receiver : Option (Recv T)
  on_item : S → T → S
  on_end : S → S

/-- Outcome of one Input poll: the reported result, the updated Input,
and the updated shared state. -/
structure InPollOut (S T : Type) where
  res : InputResult
  inp : Input S T
  state : S

/-- Model of Input::poll: with a source attached, poll it once and
dispatch on the single response (item callback, end callback, or
nothing), then report Ready; with no source, report Closed. -/
def Input.poll (inp : Input S T) (s : S) : InPollOut S T :=
  match inp.receiver with
  | some r =>
    let p := r.pollR
    let s' :=
      match p.1 with
      | SourceResp.item v => inp.on_item s v
      | SourceResp.eos => inp.on_end s
      | SourceResp.notReady => s
      | SourceResp.err => s
    ⟨InputResult.Ready, { inp with receiver := some p.2 }, s'⟩
  | none => ⟨InputResult.Closed, inp, s⟩

/-- Iterated polling of one Input. -/
def pollN : Nat → Input S T → S → Input S T × S
  | 0, inp, s => (inp, s)
  | n + 1, inp, s =>
    let o := inp.poll s
    pollN n o.inp o.state

/-- The Input of claim C2's scenario: three items (1, 2, 3) already
buffered in the source; the state accumulates the delivered items. -/
def c2Input : Input (List Nat) Nat :=
  { receiver := some ⟨[SourceResp.item 1, SourceResp.item 2, SourceResp.item 3]⟩
    on_item := fun s v => s ++ [v]
    on_end := fun s => s }

/-- C2 counterexample: with 3 items already buffered in the source, a
single poll of the Input invokes the item callback only once (the state
records [1], not [1, 2, 3]), refuting the claim that all immediately
available messages are delivered within one poll. -/
theorem c2_counterexample :
    (c2Input.poll []).state = [1] ∧ (c2Input.poll []).state ≠ [1, 2, 3] := by
  constructor <;> simp [c2Input, Input.poll, Recv.pollR]

/-- C2 amended: each poll of an Input with an attached source processes
at most one source response.  When the head response is an available
item, exactly one item callback fires with that item, the poll reports
Ready, and the source advances by one response; consequently k buffered
items are delivered in order over k successive polls (the state ends as
the left fold of the item callback over the items). -/
theorem c2_one_item_per_poll {S T : Type} (inp : Input S T) (s : S) :
    (∀ (v : T) (rs : List (SourceResp T)),
      inp.receiver = some ⟨SourceResp.item v :: rs⟩ →
      inp.poll s = ⟨InputResult.Ready, { inp with receiver := some ⟨rs⟩ }, inp.on_item s v⟩) ∧
    (∀ (vs : List T) (rest : List (SourceResp T)),
      inp.receiver = some ⟨vs.map SourceResp.item ++ rest⟩ →
      (pollN vs.length inp s).2 = vs.foldl inp.on_item s) := by
  constructor
  · intro v rs h
    simp [Input.poll, h, Recv.pollR]
  · intro vs
    induction vs generalizing inp s with
    | nil => intro rest h; simp [pollN]
    | cons v vs ih =>
      intro rest h
      have hstep : inp.poll s =
          ⟨InputResult.Ready, { inp with receiver := some ⟨vs.map SourceResp.item ++ rest⟩ },
            inp.on_item s v⟩ := by
        simp [Input.poll, h, Recv.pollR]
      simp only [List.length_cons, pollN, hstep, List.foldl_cons]
      exact ih _ _ _ rfl

/-- A concrete Input for the C2 witness: two buffered items, state
accumulating delivered values. -/
def c2WitnessInput : Input (List Nat) Nat :=
  { receiver := some ⟨[SourceResp.item 4, SourceResp.item 7]⟩
    on_item := fun s v => s ++ [v]
    on_end := fun s => s }

/-- Witness for the C2 amended theorem at a concrete input. -/
theorem c2_one_item_per_poll_witness :
    (c2WitnessInput.poll [] =
      ⟨InputResult.Ready,
        { c2WitnessInput with receiver := some ⟨[SourceResp.item 7]⟩ },
        c2WitnessInput.on_item [] 4⟩) ∧
    (pollN ([4, 7].length) c2WitnessInput []).2 = [4, 7].foldl c2WitnessInput.on_item [] :=
  ⟨(c2_one_item_per_poll c2WitnessInput []).1 4 [SourceResp.item 7] rfl,
   (c2_one_item_per_poll c2WitnessInput []).2 [4, 7] [] rfl⟩

/-- The Input of claim C4's scenario: the source is at end-of-stream (a
real channel keeps answering end-of-stream once exhausted); the state
counts invocations of the end callback. -/
def c4Input : Input Nat Nat :=
  { receiver := some ⟨[SourceResp.eos, SourceResp.eos]⟩
    on_item := fun s _ => s
    on_end := fun s => s + 1 }

/-- C4: end-of-stream is not terminal in the code.  Polling the Input
twice after the source has ended fires the end callback twice (the
counter reaches 2, not 1), both polls report Ready rather than Closed,
and the source handle is still attached afterwards: the code never
detaches the receiver, so the Closed branch of Input::poll is
unreachable after construction. -/
theorem c4_end_not_terminal :
    (pollN 2 c4Input 0).2 = 2 ∧
    (c4Input.poll 0).res = InputResult.Ready ∧
    ((c4Input.poll 0).inp.poll ((c4Input.poll 0).state)).res = InputResult.Ready ∧
    (pollN 2 c4Input 0).1.receiver ≠ none := by
  refine ⟨?_, ?_, ?_, ?_⟩ <;>
    simp [c4Input, pollN, Input.poll, Recv.pollR]

/-! ## Timer model (src/lib.rs, Timer and PollableTimer) -/

/-- Result of polling a Timer, as the Rust enum TimerResult. -/
inductive TimerResult
  | Ready
  | Closed
deriving Repr, DecidableEq

/-- Return value declared for timer callbacks, as the Rust enum
TimerRun. -/
inductive TimerRun
  | Continue
  | Stop
deriving Repr, DecidableEq

/-- The catch-up loop of Timer::poll (while now >= next, next += period),
entered only when the timer is due.  The loop can only terminate when
the period is positive, so that side condition guards the recursion; the
period-zero divergence of the raw loop is analysed separately through
the fuelled version below. -/
def catchUp (now period next : Nat) : Nat :=
  if _h : 0 < period ∧ next ≤ now then catchUp now period (next + period) else next
termination_by now + 1 - next
decreasing_by
  simp_wf
  omega

/-- The same catch-up loop with explicit fuel, mirroring the Rust loop
literally (the guard is exactly now >= next): none models running out of
fuel, so divergence of the loop shows as none for every fuel. -/
def catchUpFuel : Nat → Nat → Nat → Nat → Option Nat
  | 0, _, _, _ => none
  | fuel + 1, now, period, next =>
    if next ≤ now then catchUpFuel fuel now period (next + period) else some next

/-- The catch-up result strictly exceeds the current instant whenever
the period is positive. -/
theorem catchUp_gt (now period : Nat) (hp : 0 < period) :
    ∀ next, now < catchUp now period next := by
  intro next
  generalize hm : now + 1 - next = m
  induction m using Nat.strong_induction_on generalizing next with
  | _ m ih =>
    unfold catchUp
    split
    case isTrue h =>
      exact ih (now + 1 - (next + period)) (by omega) (next + period) rfl
    case isFalse h =>
      push_neg at h
      simpa using h hp

/-- With positive period the fuelled loop reaches the catch-up result. -/
theorem catchUpFuel_reaches (now period : Nat) (hp : 0 < period) :
    ∀ next, ∃ fuel, catchUpFuel fuel now period next = some (catchUp now period next) := by
  intro next
  generalize hm : now + 1 - next = m
  induction m using Nat.strong_induction_on generalizing next with
  | _ m ih =>
    by_cases h : next ≤ now
    · obtain ⟨fuel, hf⟩ := ih (now + 1 - (next + period)) (by omega) (next + period) rfl
      refine ⟨fuel + 1, ?_⟩
      rw [catchUpFuel, if_pos h, hf]
      conv_rhs => rw [catchUp]
      simp [hp, h]
    · refine ⟨1, ?_⟩
      rw [catchUpFuel, if_neg h]
      conv_rhs => rw [catchUp]
      simp [h]

/-- C9: the catch-up loop of Timer::poll terminates exactly when the
period is positive.  With a positive period some fuel suffices for the
literal loop to finish (yielding the catch-up result), while with
period 0 and a due timer the loop never exits, whatever the fuel: the
strictly-positive-period precondition is necessary. -/
theorem c9_catchup_termination (now next : Nat) :
    (∀ period, 0 < period →
      ∃ fuel, catchUpFuel fuel now period next = some (catchUp now period next)) ∧
    (next ≤ now → ∀ fuel, catchUpFuel fuel now 0 next = none) := by
  constructor
  · intro period hp
    exact catchUpFuel_reaches now period hp next
  · intro h fuel
    induction fuel generalizing next with
    | zero => rfl
    | succ n ih =>
      rw [catchUpFuel, if_pos h]
      exact ih (next + 0) (by omega)

/-- Witness for C9 at concrete inputs: with period 1 the loop finishes
from instant 3 below now 5, and with period 0 it runs out of any amount
of fuel. -/
theorem c9_catchup_termination_witness :
    (∃ fuel, catchUpFuel fuel 5 1 3 = some (catchUp 5 1 3)) ∧
    (∀ fuel, catchUpFuel fuel 5 0 3 = none) :=
  ⟨(c9_catchup_termination 5 3).1 1 (by decide),
   (c9_catchup_termination 5 3).2 (by decide)⟩

/-- The Timer: its callback (returning the declared continue/stop
value), the liveness flag, the period and the optional next activation
instant.  The clock handle is represented by passing the current instant
to poll and recording the wakeup registrations performed. -/
structure Timer (S : Type) where
  on_timer : S → S × TimerRun
  «on» : Bool
  period : Nat
  next_activation : Option Nat

/-- Outcome of one Timer poll: the reported result, the updated Timer,
the updated shared state, and the instants registered with the clock
during this poll. -/
structure TimerPollOut (S : Type) where
  res : TimerResult
  timer : Timer S
  state : S
  regs : List Nat

/-- Model of Timer::poll: a timer with the liveness flag unset reports
Closed; an unarmed timer arms itself at now + period and registers that
instant; an armed timer that is due fires the callback once (its
returned TimerRun is discarded), advances next activation through the
catch-up loop, and registers the new instant; an armed timer that is not
due does nothing.  All non-closed outcomes report Ready. -/
def Timer.poll (t : Timer S) (now : Nat) (s : S) : TimerPollOut S :=
  if !t.on then ⟨TimerResult.Closed, t, s, []⟩
  else
    match t.next_activation with
    | none =>
      let next := now + t.period
      ⟨TimerResult.Ready, { t with next_activation := some next }, s, [next]⟩
    | some next =>
      if next ≤ now then
        let s' := (t.on_timer s).1
        let next' := catchUp now t.period next
        ⟨TimerResult.Ready, { t with next_activation := some next' }, s', [next']⟩
      else ⟨TimerResult.Ready, t, s, []⟩

/-- C5: an armed, live timer that is due fires its callback exactly once
per poll, recomputes the next activation by repeatedly adding the period
until it strictly exceeds now, and performs exactly one wakeup
registration, at that new instant. -/
theorem c5_timer_coalescing {S : Type} (t : Timer S) (now next : Nat) (s : S)
    (h1 : t.on = true) (h2 : t.next_activation = some next) (h3 : next ≤ now)
    (h4 : 0 < t.period) :
    (t.poll now s).res = TimerResult.Ready ∧
    (t.poll now s).state = (t.on_timer s).1 ∧
    (t.poll now s).timer.next_activation = some (catchUp now t.period next) ∧
    now < catchUp now t.period next ∧
    (t.poll now s).regs = [catchUp now t.period next] := by
  refine ⟨?_, ?_, ?_, catchUp_gt now t.period h4 next, ?_⟩ <;>
    simp [Timer.poll, h1, h2, h3]

/-- The timer of the C5 witness scenario: period 1, armed at instant 1,
counting callback invocations in the state. -/
def c5Timer : Timer Nat :=
  { on_timer := fun n => (n + 1, TimerRun.Continue)
    «on» := true
    period := 1
    next_activation := some 1 }

/-- Witness for C5: the clock jumped from instant 0 to instant 5 (five
whole periods) without intermediate polls; one poll fires the counting
callback exactly once and registers exactly one wakeup, at the catch-up
instant beyond now. -/
theorem c5_timer_coalescing_witness :
    (c5Timer.poll 5 0).res = TimerResult.Ready ∧
    (c5Timer.poll 5 0).state = (c5Timer.on_timer 0).1 ∧
    (c5Timer.poll 5 0).timer.next_activation = some (catchUp 5 c5Timer.period 1) ∧
    5 < catchUp 5 c5Timer.period 1 ∧
    (c5Timer.poll 5 0).regs = [catchUp 5 c5Timer.period 1] :=
  c5_timer_coalescing c5Timer 5 1 0 rfl rfl (by decide) (by decide)

/-! ## Output model (src/lib.rs, OutputState and Output) -/

/-- Result of polling an Output, as the Rust enum OutputResult. -/
inductive OutputResult
  | Ready
  | NotReady
  | Closed
deriving Repr, DecidableEq

/-- One response of the sink to poll_complete: the in-flight send
finished, is not finished yet, or failed. -/
inductive CompleteResp
  | ready
  | notReady
  | err
deriving Repr, DecidableEq

/-- One response of the sink to start_send: the value was accepted, was
rejected and handed back, or the send failed. -/
inductive StartResp
  | accept
  | reject
  | err
deriving Repr, DecidableEq

/-- The outbound sink, modelled as the schedules of responses it will
give to successive poll_complete and start_send calls (the channel is an
external collaborator; an exhausted schedule cooperates), together with
two observables: the values it has accepted, in acceptance order, and
the number of accepted sends not yet completed. -/
structure SinkModel (T : Type) where
  completes : List CompleteResp
  starts : List StartResp
  accepted : List T
  outstanding : Nat
deriving Repr, DecidableEq

/-- The sink's poll_complete: consume the head of the completion
schedule; a completion that reports ready finishes one outstanding
send. -/
def SinkModel.pollComplete (s : SinkModel T) : CompleteResp × SinkModel T :=
  match s.completes with
  | [] => (CompleteResp.ready, { s with outstanding := s.outstanding - 1 })
  | c :: cs =>
    match c with
    | CompleteResp.ready =>
      (CompleteResp.ready, { s with completes := cs, outstanding := s.outstanding - 1 })
    | CompleteResp.notReady => (CompleteResp.notReady, { s with completes := cs })
    | CompleteResp.err => (CompleteResp.err, { s with completes := cs })

/-- The sink's start_send: consume the head of the start schedule; an
acceptance records the value and opens one outstanding send. -/
def SinkModel.startSend (s : SinkModel T) (v : T) : StartResp × SinkModel T :=
  match s.starts with
  | [] =>
    (StartResp.accept,
      { s with accepted := s.accepted ++ [v], outstanding := s.outstanding + 1 })
  | r :: rs =>
    match r with
    | StartResp.accept =>
      (StartResp.accept,
        { s with starts := rs, accepted := s.accepted ++ [v],
                 outstanding := s.outstanding + 1 })
    | StartResp.reject => (StartResp.reject, { s with starts := rs })
    | StartResp.err => (StartResp.err, { s with starts := rs })

/-- The shared OutputState: the optional sink, the in-progress flag and
the pending-value queue (front of the VecDeque at the head). -/
structure OutputState (T : Type) where
  sender : Option (SinkModel T)
  send_in_progress : Bool
  buffer : List T
deriving Repr, DecidableEq

/-- The second stage of OutputState::poll, reached with no send in
progress: pop the front of the buffer, if any, and attempt to start a
new send; acceptance sets the in-progress flag, rejection pushes the
value back to the front unchanged, failure discards it; then report
Ready. -/
def startStage (s : SinkModel T) (buffer : List T) : OutputResult × OutputState T :=
  match buffer with
  | [] => (OutputResult.Ready, ⟨some s, false, []⟩)
  | v :: rest =>
    let p := s.startSend v
    match p.1 with
    | StartResp.accept => (OutputResult.Ready, ⟨some p.2, true, rest⟩)
    | StartResp.reject => (OutputResult.Ready, ⟨some p.2, false, v :: rest⟩)
    | StartResp.err => (OutputResult.Ready, ⟨some p.2, false, rest⟩)

/-- Model of OutputState::poll: with no sink, report Closed.  With a
sink and a send in progress, try to finish it: not-ready reports
NotReady and stops (the queue untouched); completion or failure clears
the in-progress flag and falls through to the start stage.  With no
send in progress, go straight to the start stage. -/
def OutputState.poll (o : OutputState T) : OutputResult × OutputState T :=
  match o.sender with
  | none => (OutputResult.Closed, o)
  | some s =>
    if o.send_in_progress then
      let p := s.pollComplete
      match p.1 with
      | CompleteResp.notReady => (OutputResult.NotReady, ⟨some p.2, true, o.buffer⟩)
      | CompleteResp.ready => startStage p.2 o.buffer
      | CompleteResp.err => startStage p.2 o.buffer
    else startStage s o.buffer

/-- Model of Output::send: enqueue the value at the back of the buffer,
then immediately run the flush algorithm, discarding its result. -/
def OutputState.send (o : OutputState T) (v : T) : OutputState T :=
  (OutputState.poll { o with buffer := o.buffer ++ [v] }).2

/-- A sink whose remaining schedules contain no failure responses. -/
def SinkErrFree (s : SinkModel T) : Prop :=
  CompleteResp.err ∉ s.completes ∧ StartResp.err ∉ s.starts

/-- The flush invariant of an OutputState driven against a failure-free
sink: the sink is attached, the values it has accepted followed by the
pending buffer are exactly the values sent so far (in order), and the
sink has exactly one uncompleted send exactly when the in-progress flag
is set. -/
def OutInv (o : OutputState T) (sent : List T) : Prop :=
  ∃ s, o.sender = some s ∧ SinkErrFree s ∧ s.accepted ++ o.buffer = sent ∧
    s.outstanding = (if o.send_in_progress then 1 else 0)

/-- Unfolding equation for OutputState::poll with a sink attached. -/
theorem OutputState.poll_some (s : SinkModel T) (sip : Bool) (buf : List T) :
    OutputState.poll ⟨some s, sip, buf⟩ =
      if sip then
        match (s.pollComplete).1 with
        | CompleteResp.notReady =>
          (OutputResult.NotReady, ⟨some (s.pollComplete).2, true, buf⟩)
        | CompleteResp.ready => startStage (s.pollComplete).2 buf
        | CompleteResp.err => startStage (s.pollComplete).2 buf
      else startStage s buf := rfl

/-- The start stage preserves the flush invariant when entered with no
outstanding send. -/
theorem startStage_inv (s : SinkModel T) (buffer sent : List T)
    (hf : SinkErrFree s) (hacc : s.accepted ++ buffer = sent)
    (hout : s.outstanding = 0) :
    OutInv (startStage s buffer).2 sent := by
  cases buffer with
  | nil =>
    exact ⟨s, rfl, hf, by simpa [startStage] using hacc, by simp [startStage, hout]⟩
  | cons v rest =>
    cases hstarts : s.starts with
    | nil =>
      refine ⟨⟨s.completes, s.starts, s.accepted ++ [v], s.outstanding + 1⟩, ?_,
        ⟨hf.1, hstarts ▸ hf.2⟩, ?_, ?_⟩ <;>
        simp [startStage, SinkModel.startSend, hstarts, hout, ← hacc]
    | cons r rs =>
      have hfs : StartResp.err ∉ r :: rs := hstarts ▸ hf.2
      cases r with
      | accept =>
        refine ⟨⟨s.completes, rs, s.accepted ++ [v], s.outstanding + 1⟩, ?_,
          ⟨hf.1, fun hm => hfs (List.mem_cons_of_mem _ hm)⟩, ?_, ?_⟩ <;>
          simp [startStage, SinkModel.startSend, hstarts, hout, ← hacc]
      | reject =>
        refine ⟨⟨s.completes, rs, s.accepted, s.outstanding⟩, ?_,
          ⟨hf.1, fun hm => hfs (List.mem_cons_of_mem _ hm)⟩, ?_, ?_⟩ <;>
          simp [startStage, SinkModel.startSend, hstarts, hout, ← hacc]
      | err => exact absurd (List.mem_cons_self _ _) hfs

/-- OutputState::poll preserves the flush invariant. -/
theorem poll_inv (o : OutputState T) (sent : List T) (h : OutInv o sent) :
    OutInv (OutputState.poll o).2 sent := by
  obtain ⟨s, hs, hf, hacc, hout⟩ := h
  obtain ⟨osender, osip, obuf⟩ := o
  simp only at hs hacc hout ⊢
  subst hs
  rw [OutputState.poll_some]
  cases osip with
  | false =>
    simp only [if_neg Bool.false_ne_true]
    simp only [if_neg Bool.false_ne_true] at hout
    exact startStage_inv s obuf sent hf hacc hout
  | true =>
    simp only [if_pos rfl] at hout ⊢
    cases hcs : s.completes with
    | nil =>
      simp only [SinkModel.pollComplete, hcs]
      exact startStage_inv _ _ _ ⟨by simp, hf.2⟩ hacc (by simp [hout])
    | cons c cs =>
      have hfc : CompleteResp.err ∉ c :: cs := hcs ▸ hf.1
      cases c with
      | ready =>
        simp only [SinkModel.pollComplete, hcs]
        exact startStage_inv _ _ _
          ⟨fun hm => hfc (List.mem_cons_of_mem _ hm), hf.2⟩ hacc (by simp [hout])
      | notReady =>
        simp only [SinkModel.pollComplete, hcs]
        exact ⟨⟨cs, s.starts, s.accepted, s.outstanding⟩, rfl,
          ⟨fun hm => hfc (List.mem_cons_of_mem _ hm), hf.2⟩, hacc, by simp [hout]⟩
      | err => exact absurd (List.mem_cons_self _ _) hfc

/-- Output::send preserves the flush invariant, extending the sent list
by the new value. -/
theorem send_inv (o : OutputState T) (sent : List T) (v : T) (h : OutInv o sent) :
    OutInv (o.send v) (sent ++ [v]) := by
  obtain ⟨s, hs, hf, hacc, hout⟩ := h
  exact poll_inv _ _ ⟨s, hs, hf, by rw [← List.append_assoc, hacc], hout⟩

/-- One user-visible operation on an Output: a send of a value, or one
poll of the flush algorithm (as performed by the owning Agent). -/
inductive OutOp (T : Type)
  | send (v : T)
  | poll
deriving Repr, DecidableEq

/-- Run a sequence of operations against an OutputState. -/
def runOut : List (OutOp T) → OutputState T → OutputState T
  | [], o => o
  | OutOp.send v :: ops, o => runOut ops (o.send v)
  | OutOp.poll :: ops, o => runOut ops (OutputState.poll o).2

/-- The values passed to send in an operation sequence, in call order. -/
def sentVals : List (OutOp T) → List T
  | [] => []
  | OutOp.send v :: ops => v :: sentVals ops
  | OutOp.poll :: ops => sentVals ops

/-- Running any operation sequence preserves the flush invariant. -/
theorem runOut_inv (ops : List (OutOp T)) (o : OutputState T) (sent : List T)
    (h : OutInv o sent) : OutInv (runOut ops o) (sent ++ sentVals ops) := by
  induction ops generalizing o sent with
  | nil => simpa [runOut, sentVals] using h
  | cons op ops ih =>
    cases op with
    | send v =>
      have := ih (o.send v) (sent ++ [v]) (send_inv o sent v h)
      simpa [runOut, sentVals] using this
    | poll =>
      have := ih (OutputState.poll o).2 sent (poll_inv o sent h)
      simpa [runOut, sentVals] using this

/-- The values accepted so far by the sink of an OutputState. -/
def sinkAccepted (o : OutputState T) : List T :=
  match o.sender with
  | some s => s.accepted
  | none => []

/-- The number of uncompleted sends open on the sink of an
OutputState. -/
def sinkOutstanding (o : OutputState T) : Nat :=
  match o.sender with
  | some s => s.outstanding
  | none => 0

/-- C6: FIFO flushing with at most one outstanding send.  For every
sequence of send and poll operations run against a fresh Output whose
sink never fails (it may reject or stall arbitrarily, per its response
schedules), the values the sink has accepted followed by the values
still buffered are exactly the sent values in send-call order — so the
sink receives values strictly FIFO — and the sink never holds more than
one uncompleted send. -/
theorem c6_fifo_order {T : Type} (ops : List (OutOp T))
    (cs : List CompleteResp) (ss : List StartResp)
    (hc : CompleteResp.err ∉ cs) (hs : StartResp.err ∉ ss) :
    sinkAccepted (runOut ops ⟨some ⟨cs, ss, [], 0⟩, false, []⟩) ++
      (runOut ops ⟨some ⟨cs, ss, [], 0⟩, false, []⟩).buffer = sentVals ops ∧
    sinkOutstanding (runOut ops ⟨some ⟨cs, ss, [], 0⟩, false, []⟩) ≤ 1 := by
  have h0 : OutInv (⟨some ⟨cs, ss, [], 0⟩, false, []⟩ : OutputState T) [] :=
    ⟨⟨cs, ss, [], 0⟩, rfl, ⟨hc, hs⟩, by simp, by simp⟩
  obtain ⟨s, hsend, _, hacc, hout⟩ := runOut_inv ops _ [] h0
  constructor
  · simp only [sinkAccepted, hsend]
    simpa using hacc
  · simp only [sinkOutstanding, hsend, hout]
    split <;> omega

/-- Witness for C6 at a concrete run: two sends while the sink first
stalls completion and rejects a start, then three polls; the accepted
values plus the remaining buffer list the sent values in order, with at
most one send outstanding at the end. -/
theorem c6_fifo_order_witness :
    sinkAccepted (runOut [OutOp.send 10, OutOp.send 20, OutOp.poll, OutOp.poll, OutOp.poll]
        ⟨some ⟨[CompleteResp.notReady], [StartResp.reject], [], 0⟩, false, []⟩) ++
      (runOut [OutOp.send 10, OutOp.send 20, OutOp.poll, OutOp.poll, OutOp.poll]
        ⟨some ⟨[CompleteResp.notReady], [StartResp.reject], [], 0⟩, false, []⟩).buffer =
      sentVals [OutOp.send 10, OutOp.send 20, OutOp.poll, OutOp.poll, OutOp.poll] ∧
    sinkOutstanding (runOut [OutOp.send 10, OutOp.send 20, OutOp.poll, OutOp.poll, OutOp.poll]
        ⟨some ⟨[CompleteResp.notReady], [StartResp.reject], [], 0⟩, false, []⟩) ≤ 1 :=
  c6_fifo_order [OutOp.send 10, OutOp.send 20, OutOp.poll, OutOp.poll, OutOp.poll]
    [CompleteResp.notReady] [StartResp.reject] (by decide) (by decide)

/-! ## Agent model (src/lib.rs, Agent and its Future impl) -/

/-- The two non-error outcomes of Agent::poll (Async::NotReady and
Async::Ready(())); the Rust return type wraps them in a Result whose
error variant the code never produces. -/
inductive Async
  | ready
  | notReady
deriving Repr, DecidableEq

/-- Whether a TimerResult reports that more work may exist. -/
def TimerResult.isReady : TimerResult → Bool
  | TimerResult.Ready => true
  | TimerResult.Closed => false

/-- Whether an InputResult reports that more work may exist. -/
def InputResult.isReady : InputResult → Bool
  | InputResult.Ready => true
  | InputResult.Closed => false

/-- An Agent: the shared state plus its Inputs, Outputs and Timers.  In
the Rust code the pollable collections are heterogeneous boxed trait
objects; here each collection is homogeneous in its message type, which
the claims do not depend on. -/
structure Agent (S T U : Type) where
  inputs : List (Input S T)
  outputs : List (OutputState U)
  timers : List (Timer S)
  state : S

/-- The output loop of Agent::poll: poll each Output in order; the first
NotReady stops the loop (outputs after it are not polled this cycle) and
reports blocked. -/
def pollOutputs : List (OutputState U) → Bool × List (OutputState U)
  | [] => (false, [])
  | o :: rest =>
    let p := OutputState.poll o
    match p.1 with
    | OutputResult.NotReady => (true, p.2 :: rest)
    | OutputResult.Ready =>
      let q := pollOutputs rest
      (q.1, p.2 :: q.2)
    | OutputResult.Closed =>
      let q := pollOutputs rest
      (q.1, p.2 :: q.2)

/-- The timer loop of Agent::poll: poll each Timer in order, threading
the shared state; report whether any timer returned Ready. -/
def pollTimers (now : Nat) : List (Timer S) → S → Bool × List (Timer S) × S
  | [], s => (false, [], s)
  | t :: rest, s =>
    let o := t.poll now s
    let p := pollTimers now rest o.state
    (o.res.isReady || p.1, o.timer :: p.2.1, p.2.2)

/-- The input loop of Agent::poll: poll each Input in order, threading
the shared state; report whether any input returned Ready. -/
def pollInputs : List (Input S T) → S → Bool × List (Input S T) × S
  | [], s => (false, [], s)
  | i :: rest, s =>
    let o := i.poll s
    let p := pollInputs rest o.state
    (o.res.isReady || p.1, o.inp :: p.2.1, p.2.2)

/-- Outcome of one Agent poll cycle: the executor-visible result and
the updated Agent. -/
structure AgentPollOut (S T U : Type) where
  res : Except Unit Async
  agent : Agent S T U

/-- Model of Agent::poll: poll every Output and return NotReady at once
if any is blocked (Timers and Inputs are then not polled); otherwise
poll every Timer, then every Input, threading the shared state, and
report Ready exactly when no Timer and no Input reported Ready.  The
result is always the ok variant. -/
def Agent.poll (a : Agent S T U) (now : Nat) : AgentPollOut S T U :=
  let po := pollOutputs a.outputs
  if po.1 then ⟨Except.ok Async.notReady, ⟨a.inputs, po.2, a.timers, a.state⟩⟩
  else
    let pt := pollTimers now a.timers a.state
    let pi := pollInputs a.inputs pt.2.2
    ⟨Except.ok (if !pt.1 && !pi.1 then Async.ready else Async.notReady),
     ⟨pi.2.1, po.2, pt.2.1, pi.2.2⟩⟩

/-- A live timer always polls Ready. -/
theorem timer_poll_ready {S : Type} (t : Timer S) (now : Nat) (s : S)
    (h : t.on = true) : (t.poll now s).res = TimerResult.Ready := by
  simp only [Timer.poll, h, Bool.not_true, Bool.false_eq_true, if_false]
  cases t.next_activation with
  | none => rfl
  | some next =>
    dsimp only
    split <;> rfl

/-- A timer list containing a live timer reports Ready. -/
theorem pollTimers_ready {S : Type} (now : Nat) (ts : List (Timer S)) (s : S)
    (t : Timer S) (hmem : t ∈ ts) (hon : t.on = true) :
    (pollTimers now ts s).1 = true := by
  induction ts generalizing s with
  | nil => cases hmem
  | cons t' rest ih =>
    rcases List.mem_cons.mp hmem with h | h
    · subst h
      simp [pollTimers, timer_poll_ready t now s hon, TimerResult.isReady]
    · simp [pollTimers, ih _ h]

/-- The start stage of the flush algorithm always reports Ready: in
particular a sink rejecting the start of a new send does not produce a
NotReady (blocked) report. -/
theorem startStage_res (s : SinkModel T) (buf : List T) :
    (startStage s buf).1 = OutputResult.Ready := by
  cases buf with
  | nil => rfl
  | cons v rest =>
    dsimp only [startStage]
    split <;> rfl

/-- C7: a timer never self-terminates.  A live timer always polls Ready
(never Closed); the TimerRun value returned by the callback is never
consulted — replacing it by any other value changes nothing observable
about the poll; and an Agent holding at least one live timer never
reports completion from its poll, whatever the poll. -/
theorem c7_timer_never_stops {S T U : Type} :
    (∀ (t : Timer S) (now : Nat) (s : S), t.on = true →
      (t.poll now s).res = TimerResult.Ready) ∧
    (∀ (t : Timer S) (q : TimerRun) (now : Nat) (s : S),
      (Timer.poll { t with on_timer := fun x => ((t.on_timer x).1, q) } now s).res =
          (t.poll now s).res ∧
      (Timer.poll { t with on_timer := fun x => ((t.on_timer x).1, q) } now s).state =
          (t.poll now s).state ∧
      (Timer.poll { t with on_timer := fun x => ((t.on_timer x).1, q) } now s).regs =
          (t.poll now s).regs ∧
      (Timer.poll { t with on_timer :=
          fun x => ((t.on_timer x).1, q) } now s).timer.next_activation =
        (t.poll now s).timer.next_activation) ∧
    (∀ (a : Agent S T U) (now : Nat),
      (∃ t, t ∈ a.timers ∧ t.on = true) → (a.poll now).res ≠ Except.ok Async.ready) := by
  refine ⟨fun t now s h => timer_poll_ready t now s h, ?_, ?_⟩
  · intro t q now s
    cases h : t.on with
    | false => simp [Timer.poll, h]
    | true =>
      cases hna : t.next_activation with
      | none => simp [Timer.poll, h, hna]
      | some next =>
        by_cases hle : next ≤ now <;> simp [Timer.poll, h, hna, hle]
  · rintro a now ⟨t, hmem, hon⟩
    unfold Agent.poll
    by_cases hb : (pollOutputs a.outputs).1
    · simp [hb]
    · have ht := pollTimers_ready now a.timers a.state t hmem hon
      simp [hb, ht]

/-- A live timer for the C7 witness, counting its callback calls. -/
def c7Timer : Timer Nat :=
  { on_timer := fun n => (n + 1, TimerRun.Continue)
    «on» := true
    period := 1
    next_activation := none }

/-- An agent holding one live timer, for the C7 witness. -/
def c7Agent : Agent Nat Nat Nat :=
  { inputs := [], outputs := [], timers := [c7Timer], state := 0 }

/-- Witness for C7 at concrete inputs: the live timer polls Ready and
the agent holding it does not report completion. -/
theorem c7_timer_never_stops_witness :
    (c7Timer.poll 0 0).res = TimerResult.Ready ∧
    (Agent.poll c7Agent 0).res ≠ Except.ok Async.ready :=
  ⟨(c7_timer_never_stops (S := Nat) (T := Nat) (U := Nat)).1 c7Timer 0 0 rfl,
   (c7_timer_never_stops (S := Nat) (T := Nat) (U := Nat)).2.2 c7Agent 0
     ⟨c7Timer, by simp [c7Agent], rfl⟩⟩

/-- The timer of the C3 counterexample: due at instant 0, counting its
callback calls in the shared state. -/
def c3Timer : Timer Nat :=
  { on_timer := fun n => (n + 1, TimerRun.Continue)
    «on» := true
    period := 1
    next_activation := some 0 }

/-- The agent of the C3 counterexample: one Output whose sink rejects
the next start_send (with value 9 pending in the buffer and no send in
progress), and one due timer. -/
def c3Agent : Agent Nat Nat Nat :=
  { inputs := []
    outputs := [⟨some ⟨[], [StartResp.reject], [], 0⟩, false, [9]⟩]
    timers := [c3Timer]
    state := 0 }

/-- C3 counterexample: the sink is rejecting new sends during this poll
cycle (the Output attempts to start sending 9 and is rejected, leaving
the value requeued), yet the timer callback executes in the same cycle —
the shared state rises from 0 to 1 — refuting the claim that a rejecting
sink halts the cycle before Timers and Inputs run. -/
theorem c3_counterexample :
    (Agent.poll c3Agent 1).agent.state = 1 ∧
    (Agent.poll c3Agent 1).agent.state ≠ 0 ∧
    (Agent.poll c3Agent 1).agent.outputs =
      [⟨some ⟨[], [], [], 0⟩, false, [9]⟩] := by
  refine ⟨?_, ?_, ?_⟩ <;>
    simp [c3Agent, c3Timer, Agent.poll, pollOutputs, pollTimers, pollInputs,
      OutputState.poll, startStage, SinkModel.startSend, Timer.poll]

/-- C3 amended: a poll cycle halts before Timers and Inputs exactly on a
blocked Output, and an Output reports blocked (NotReady) only when a
send is in progress and the sink's completion poll answers not-ready —
never because a new send was rejected.  When the output sweep reports
blocked, the cycle returns not-finished at once and the Timers, Inputs
and shared state are all untouched. -/
theorem c3_blocked_halts {S T U : Type} (a : Agent S T U) (now : Nat)
    (h : (pollOutputs a.outputs).1 = true) :
    (a.poll now).res = Except.ok Async.notReady ∧
    (a.poll now).agent.timers = a.timers ∧
    (a.poll now).agent.inputs = a.inputs ∧
    (a.poll now).agent.state = a.state ∧
    (∀ (s : SinkModel U) (sip : Bool) (buf : List U),
      (OutputState.poll ⟨some s, sip, buf⟩).1 = OutputResult.NotReady →
      sip = true ∧ (s.pollComplete).1 = CompleteResp.notReady) := by
  refine ⟨?_, ?_, ?_, ?_, ?_⟩
  · simp [Agent.poll, h]
  · simp [Agent.poll, h]
  · simp [Agent.poll, h]
  · simp [Agent.poll, h]
  · intro s sip buf hnr
    rw [OutputState.poll_some] at hnr
    cases sip with
    | false =>
      rw [if_neg Bool.false_ne_true] at hnr
      rw [startStage_res] at hnr
      cases hnr
    | true =>
      rw [if_pos rfl] at hnr
      cases hc : (s.pollComplete).1 with
      | notReady => exact ⟨rfl, rfl⟩
      | ready => rw [hc, startStage_res] at hnr; cases hnr
      | err => rw [hc, startStage_res] at hnr; cases hnr

/-- The agent of the C3 witness: an Output with a send in progress whose
sink stalls completion, plus one input and one due timer that must stay
untouched. -/
def c3BlockedAgent : Agent Nat Nat Nat :=
  { inputs := [{ receiver := some ⟨[SourceResp.item 5]⟩
                 on_item := fun s v => s + v
                 on_end := fun s => s }]
    outputs := [⟨some ⟨[CompleteResp.notReady], [], [], 1⟩, true, [5]⟩]
    timers := [c3Timer]
    state := 0 }

/-- Witness for the C3 amended theorem at a concrete blocked agent. -/
theorem c3_blocked_halts_witness :
    (Agent.poll c3BlockedAgent 1).res = Except.ok Async.notReady ∧
    (Agent.poll c3BlockedAgent 1).agent.timers = c3BlockedAgent.timers ∧
    (Agent.poll c3BlockedAgent 1).agent.inputs = c3BlockedAgent.inputs ∧
    (Agent.poll c3BlockedAgent 1).agent.state = c3BlockedAgent.state ∧
    (∀ (s : SinkModel Nat) (sip : Bool) (buf : List Nat),
      (OutputState.poll ⟨some s, sip, buf⟩).1 = OutputResult.NotReady →
      sip = true ∧ (s.pollComplete).1 = CompleteResp.notReady) :=
  c3_blocked_halts c3BlockedAgent 1
    (by simp [c3BlockedAgent, pollOutputs, OutputState.poll, SinkModel.pollComplete])

/-- C10: an Agent with no Inputs and no Timers completes on any poll in
which no Output reports blocked, regardless of what its Outputs still
hold. -/
theorem c10_completes_without_drain {S T U : Type} (a : Agent S T U) (now : Nat)
    (h1 : a.inputs = []) (h2 : a.timers = []) (h3 : (pollOutputs a.outputs).1 = false) :
    (a.poll now).res = Except.ok Async.ready := by
  simp [Agent.poll, h1, h2, h3, pollTimers, pollInputs]

/-- The agent of the C10 witness: no Inputs, no Timers, one Output whose
sink accepts the next send, with two values pending. -/
def c10Agent : Agent Nat Nat Nat :=
  { inputs := []
    outputs := [⟨some ⟨[], [], [], 0⟩, false, [7, 8]⟩]
    timers := []
    state := 0 }

/-- Witness for C10: after the poll the agent reports completion even
though the send of 7 is newly in flight and 8 is still buffered. -/
theorem c10_completes_without_drain_witness :
    (Agent.poll c10Agent 0).res = Except.ok Async.ready ∧
    (Agent.poll c10Agent 0).agent.outputs =
      [⟨some ⟨[], [], [7], 1⟩, true, [8]⟩] :=
  ⟨c10_completes_without_drain c10Agent 0 rfl rfl
    (by simp [c10Agent, pollOutputs, OutputState.poll, startStage, SinkModel.startSend]),
   by simp [c10Agent, Agent.poll, pollOutputs, pollTimers, pollInputs,
     OutputState.poll, startStage, SinkModel.startSend]⟩

/-- C8: failures of the underlying channel are absorbed and never
surfaced.  A source error during an Input poll invokes no callback,
leaves the state unchanged, keeps the source attached, and is
indistinguishable from transient non-availability; a sink failure while
completing a send clears the in-progress flag and the flush continues
as if the send had completed (the value is not retried); a sink failure
while starting a send discards the popped value with no requeue; and
Agent::poll always returns the ok variant — never an error. -/
theorem c8_failures_absorbed {S T U : Type} :
    (∀ (inp : Input S T) (s : S) (rs : List (SourceResp T)),
      Input.poll { inp with receiver := some ⟨SourceResp.err :: rs⟩ } s =
        ⟨InputResult.Ready, { inp with receiver := some ⟨rs⟩ }, s⟩ ∧
      Input.poll { inp with receiver := some ⟨SourceResp.err :: rs⟩ } s =
        Input.poll { inp with receiver := some ⟨SourceResp.notReady :: rs⟩ } s) ∧
    (∀ (s : SinkModel U) (cs : List CompleteResp) (buf : List U),
      s.completes = CompleteResp.err :: cs →
      OutputState.poll ⟨some s, true, buf⟩ =
        startStage ⟨cs, s.starts, s.accepted, s.outstanding⟩ buf ∧
      (buf = [] → OutputState.poll ⟨some s, true, buf⟩ =
        (OutputResult.Ready,
          ⟨some ⟨cs, s.starts, s.accepted, s.outstanding⟩, false, []⟩))) ∧
    (∀ (s : SinkModel U) (ss : List StartResp) (v : U) (rest : List U),
      s.starts = StartResp.err :: ss →
      OutputState.poll ⟨some s, false, v :: rest⟩ =
        (OutputResult.Ready,
          ⟨some ⟨s.completes, ss, s.accepted, s.outstanding⟩, false, rest⟩)) ∧
    (∀ (a : Agent S T U) (now : Nat), ∃ r, (a.poll now).res = Except.ok r) := by
  refine ⟨?_, ?_, ?_, ?_⟩
  · intro inp s rs
    constructor <;> simp [Input.poll, Recv.pollR]
  · intro s cs buf hcs
    constructor
    · rw [OutputState.poll_some, if_pos rfl]
      simp [SinkModel.pollComplete, hcs]
    · intro hbuf
      subst hbuf
      rw [OutputState.poll_some, if_pos rfl]
      simp [SinkModel.pollComplete, hcs, startStage]
  · intro s ss v rest hss
    rw [OutputState.poll_some, if_neg Bool.false_ne_true]
    simp [startStage, SinkModel.startSend, hss]
  · intro a now
    by_cases hb : (pollOutputs a.outputs).1
    · exact ⟨Async.notReady, by simp [Agent.poll, hb]⟩
    · exact ⟨if !(pollTimers now a.timers a.state).1 &&
          !(pollInputs a.inputs (pollTimers now a.timers a.state).2.2).1
        then Async.ready else Async.notReady, by simp [Agent.poll, hb]⟩

/-- An Input whose source errors, for the C8 witness. -/
def c8Input : Input Nat Nat :=
  { receiver := some ⟨[]⟩
    on_item := fun s v => s + v
    on_end := fun s => s + 100 }

/-- Witness for C8 at concrete inputs: a source error delivers no
callback and equals transient non-availability; completion and start
failures on a concrete sink are absorbed as stated; a concrete agent
poll returns the ok variant. -/
theorem c8_failures_absorbed_witness :
    (Input.poll { c8Input with receiver := some ⟨[SourceResp.err]⟩ } 3 =
        ⟨InputResult.Ready, { c8Input with receiver := some ⟨[]⟩ }, 3⟩) ∧
    (OutputState.poll ⟨some ⟨[CompleteResp.err], [], [], 1⟩, true, ([] : List Nat)⟩ =
        (OutputResult.Ready, ⟨some ⟨[], [], [], 1⟩, false, []⟩)) ∧
    (OutputState.poll ⟨some ⟨[], [StartResp.err], [], 0⟩, false, [4]⟩ =
        (OutputResult.Ready, ⟨some ⟨[], [], ([] : List Nat), 0⟩, false, []⟩)) ∧
    (∃ r, (Agent.poll c7Agent 5).res = Except.ok r) :=
  ⟨((c8_failures_absorbed (S := Nat) (T := Nat) (U := Nat)).1 c8Input 3 []).1,
   ((c8_failures_absorbed (S := Nat) (T := Nat) (U := Nat)).2.1
      ⟨[CompleteResp.err], [], [], 1⟩ [] [] rfl).2 rfl,
   (c8_failures_absorbed (S := Nat) (T := Nat) (U := Nat)).2.2.1
      ⟨[], [StartResp.err], [], 0⟩ [] 4 [] rfl,
   (c8_failures_absorbed (S := Nat) (T := Nat) (U := Nat)).2.2.2 c7Agent 5⟩
